import Mathlib

/-!
# Verification of the MCP tool-server connection and invocation layer

Shallow embedding of `src/agent-runtime/mcp-tool-adapter.ts` (the
`MCPToolAdapter` class and the free functions `loadMCPConfig` /
`resolveEnvVariables`).

Modelling choices:
* The connection registry (`private connections: Map<string, ConnectionState>`)
  is an insertion-ordered association list `Registry`; `lookupReg`, `setEntry`
  and `removeEntry` mimic JavaScript `Map.get` / `Map.set` / `Map.delete`.
* The live `client` / `transport` handles inside `ConnectionState` are opaque
  objects whose only observable behaviour is the outcome of their calls; each
  transport round trip is therefore passed in as an explicit outcome value
  (`Except String _`), indexed by attempt number for the retry loops.
* `Date.now()` timestamps are abstract `Nat` values supplied by the caller.
* Durations (milliseconds) are `Nat`; the retry policies under consideration
  use non-negative integer fields, for which JavaScript number arithmetic
  (`*`, `Math.min`) agrees with `Nat` arithmetic.
* Thrown exceptions are `Option String` error results (`none` = no throw).
-/

namespace MCPAdapter

/-- Structure `MCPServerConfig` from the source: identity and launch parameters. -/
structure MCPServerConfig where
  name : String
  command : String
  args : List String
  env : Option (List (String × String))
  deriving DecidableEq, Repr

/-- Structure `MCPToolResult` from the source; the opaque `data` payload is a `Nat`. -/
structure MCPToolResult where
  success : Bool
  data : Option Nat := none
  error : Option String := none
  deriving DecidableEq, Repr

/-- Structure `MCPToolDefinition` from the source (inputSchema kept abstract: its
contents are merely copied through and never inspected by the adapter). -/
structure MCPToolDefinition where
  name : String
  description : Option String := none
  deriving DecidableEq, Repr

/-- Structure `ConnectionState` from the source.  The live `client`/`transport` handles
are not represented: they are exclusively owned opaque objects whose calls are
modelled as explicit outcome parameters. -/
structure ConnectionState where
  config : MCPServerConfig
  connected : Bool
  lastActivity : Nat
  retryCount : Nat
  deriving DecidableEq, Repr

/-- Structure `RetryConfig` from the source. -/
structure RetryConfig where
  maxRetries : Nat
  initialDelayMs : Nat
  maxDelayMs : Nat
  backoffMultiplier : Nat
  deriving DecidableEq, Repr

/-- Constant `DEFAULT_RETRY_CONFIG` from the source. -/
def DEFAULT_RETRY_CONFIG : RetryConfig :=
  { maxRetries := 3, initialDelayMs := 1000, maxDelayMs := 30000, backoffMultiplier := 2 }

/-- The `connections` map: insertion-ordered association list keyed by name. -/
abbrev Registry := List (String × ConnectionState)

/-- Like `Map.get`: first entry with the given key. -/
def lookupReg : Registry → String → Option ConnectionState
  | [], _ => none
  | p :: rest, k => if p.1 = k then some p.2 else lookupReg rest k

/-- Like `Map.set`: replace the value in place if the key is present, else append. -/
def setEntry : Registry → String → ConnectionState → Registry
  | [], k, v => [(k, v)]
  | p :: rest, k, v => if p.1 = k then (k, v) :: rest else p :: setEntry rest k v

/-- Like `Map.delete`: remove the entry with the given key, if present. -/
def removeEntry : Registry → String → Registry
  | [], _ => []
  | p :: rest, k => if p.1 = k then rest else p :: removeEntry rest k

/-- All registry entries have `connected == true` (the reachable-state
invariant of the adapter: entries are created only by `connect` with
`connected: true`, and nothing ever sets `connected` to `false`). -/
def allConnected (reg : Registry) : Bool :=
  reg.all (fun p => p.2.connected)

/-! ## Error classifier (`isRetryableError`) -/

/-- Is `pat` a prefix of `s` (character lists)? -/
def isPrefixCL : List Char → List Char → Bool
  | [], _ => true
  | _ :: _, [] => false
  | p :: ps, c :: cs => p = c && isPrefixCL ps cs

/-- Does `pat` occur as a contiguous substring of `s`? -/
def containsSub (pat : List Char) : List Char → Bool
  | [] => pat.isEmpty
  | c :: cs => isPrefixCL pat (c :: cs) || containsSub pat cs

/-- Characters matched by the JavaScript regex `.` (no `s` flag):
anything except line terminators. -/
def jsDot (c : Char) : Bool :=
  !(c = '\n' || c = '\r' || c = '\u2028' || c = '\u2029')

/-- Does `s` have a decomposition `m ++ pat ++ _` with every character of `m`
matched by `.`?  (Matching of the regex fragment `.*pat` against a suffix.) -/
def dotStarThen (pat : List Char) : List Char → Bool
  | [] => pat.isEmpty
  | c :: cs => isPrefixCL pat (c :: cs) || (jsDot c && dotStarThen pat cs)

/-- Case-normalised characters of a string (the `/i` flag on ASCII patterns). -/
def lowerChars (s : String) : List Char :=
  s.toList.map Char.toLower

/-- Regex `/connection.*refused/` tested against an already-lowercased string. -/
def connRefusedMatch : List Char → Bool
  | [] => false
  | c :: cs =>
    (isPrefixCL ("connection".toList) (c :: cs) && dotStarThen ("refused".toList) (List.drop 9 cs))
      || connRefusedMatch cs

/-- The `retryablePatterns` array: each regex as a test on the message. -/
def retryablePatterns : List (String → Bool) :=
  [ fun e => containsSub ("timeout".toList) (lowerChars e),
    fun e => connRefusedMatch (lowerChars e),
    fun e => containsSub ("econnreset".toList) (lowerChars e),
    fun e => containsSub ("econnrefused".toList) (lowerChars e),
    fun e => containsSub ("etimedout".toList) (lowerChars e),
    fun e => containsSub ("network".toList) (lowerChars e),
    fun e => containsSub ("unavailable".toList) (lowerChars e) ]

/-- Function `isRetryableError` from the source: `if (!error) return false;` then
`retryablePatterns.some((pattern) => pattern.test(error))`.  A missing
message and the empty string (both falsy) are non-retryable. -/
def isRetryableError (error : Option String) : Bool :=
  match error with
  | none => false
  | some e => if e = "" then false else retryablePatterns.any (fun p => p e)

/-! ## Connection establishment (`connect`, `connectWithRetry`) -/

/-- The success path of `connect`: build transport and client, perform the
handshake (`await client.connect(transport)`, outcome supplied as
`handshake`), and on success `connections.set` a fresh entry.  Returns the
thrown error (if any) together with the registry after the call. -/
def connectFresh (reg : Registry) (config : MCPServerConfig)
    (handshake : Except String Unit) (now : Nat) : Option String × Registry :=
  match handshake with
  | .error e => (some e, reg)
  | .ok _ =>
    (none,
      setEntry reg config.name
        { config := config, connected := true, lastActivity := now, retryCount := 0 })

/-- Method `disconnect` from the source: close the client (close errors swallowed;
the close has no observable effect in this model) and delete the entry.
Absent names are a silent no-op. -/
def disconnect (reg : Registry) (serverName : String) : Registry :=
  removeEntry reg serverName

/-- Method `connect` from the source: no-op if an entry exists and is connected;
tear down an existing disconnected entry first; then establish a fresh
connection. -/
def connect (reg : Registry) (config : MCPServerConfig)
    (handshake : Except String Unit) (now : Nat) : Option String × Registry :=
  match lookupReg reg config.name with
  | some existing =>
    if existing.connected then (none, reg)
    else connectFresh (disconnect reg config.name) config handshake now
  | none => connectFresh reg config handshake now

/-- Observable trace of one `connectWithRetry` call: the thrown error (if
any), the final registry, the number of underlying `connect` invocations,
and the sequence of backoff sleeps performed. -/
structure ConnectTrace where
  err : Option String
  reg : Registry
  attempts : Nat
  sleeps : List Nat
  deriving DecidableEq, Repr

/-- Loop body of `connectWithRetry`.  `fuel` counts the remaining loop
iterations (`maxRetries + 1 - attempt`); `handshakes i` is the handshake
outcome of the `connect` performed at loop index `i`. -/
def connectWithRetryGo (rc : RetryConfig) (config : MCPServerConfig)
    (handshakes : Nat → Except String Unit) (now : Nat) :
    Registry → Nat → Nat → Option String → Nat → ConnectTrace
  | reg, _, _, lastError, 0 =>
    { err := some ("Failed to connect to " ++ config.name ++ " after "
        ++ toString (rc.maxRetries + 1) ++ " attempts: " ++ lastError.getD "undefined"),
      reg := reg, attempts := 0, sleeps := [] }
  | reg, attempt, delay, _, fuel + 1 =>
    match connect reg config (handshakes attempt) now with
    | (none, reg') => { err := none, reg := reg', attempts := 1, sleeps := [] }
    | (some e, reg') =>
      if attempt < rc.maxRetries then
        let t := connectWithRetryGo rc config handshakes now reg' (attempt + 1)
          (min (delay * rc.backoffMultiplier) rc.maxDelayMs) (some e) fuel
        { err := t.err, reg := t.reg, attempts := t.attempts + 1, sleeps := delay :: t.sleeps }
      else
        { err := some ("Failed to connect to " ++ config.name ++ " after "
            ++ toString (rc.maxRetries + 1) ++ " attempts: " ++ e),
          reg := reg', attempts := 1, sleeps := [] }

/-- Method `connectWithRetry` from the source: up to `maxRetries + 1` iterations of
`connect`, sleeping an exponentially-backed-off delay between failures and
throwing an aggregate error on exhaustion. -/
def connectWithRetry (rc : RetryConfig) (config : MCPServerConfig)
    (handshakes : Nat → Except String Unit) (now : Nat) (reg : Registry) : ConnectTrace :=
  connectWithRetryGo rc config handshakes now reg 0 rc.initialDelayMs none (rc.maxRetries + 1)

/-! ## Invocation (`callTool`, `callToolWithRetry`) -/

/-- Observable outcome of one `callTool` call: the result value, the registry
after the call, and the number of underlying transport calls performed. -/
structure CallToolOut where
  result : MCPToolResult
  reg : Registry
  transportCalls : Nat
  deriving DecidableEq, Repr

/-- Method `callTool` from the source: absent name and disconnected entry short-
circuit to failure results without touching the transport; otherwise
`lastActivity` is updated, the transport call (outcome `callOutcome`) is
made, and `retryCount` is reset to 0 on success. -/
def callTool (reg : Registry) (serverName : String) (toolName : String)
    (callOutcome : Except String Nat) (now : Nat) : CallToolOut :=
  match lookupReg reg serverName with
  | none =>
    { result := { success := false, error := some ("Server " ++ serverName ++ " not connected") },
      reg := reg, transportCalls := 0 }
  | some conn =>
    if conn.connected = false then
      { result := { success := false, error := some ("Server " ++ serverName ++ " is disconnected") },
        reg := reg, transportCalls := 0 }
    else
      let conn' := { conn with lastActivity := now }
      match callOutcome with
      | .ok d =>
        { result := { success := true, data := some d },
          reg := setEntry reg serverName { conn' with retryCount := 0 }, transportCalls := 1 }
      | .error e =>
        { result := { success := false, error := some e },
          reg := setEntry reg serverName conn', transportCalls := 1 }

/-- Observable trace of one `callToolWithRetry` call. -/
structure CallRetryTrace where
  result : MCPToolResult
  reg : Registry
  attempts : Nat
  sleeps : List Nat
  deriving DecidableEq, Repr

/-- The best-effort reconnect step inside `callToolWithRetry`'s loop: if the
entry for `serverName` is present and disconnected, `connect` is attempted
with the stored descriptor and its error (if any) is swallowed; otherwise
nothing happens. -/
def reconnectIfDropped (reg : Registry) (serverName : String)
    (hs : Except String Unit) (now : Nat) : Registry :=
  match lookupReg reg serverName with
  | some conn =>
    if conn.connected then reg
    else (connect reg conn.config hs now).2
  | none => reg

/-- Loop body of `callToolWithRetry`.  `callOutcomes i` is the transport
outcome of the `callTool` at loop index `i` (consulted only when that call
reaches the transport); `reconnectHS i` is the handshake outcome of the
best-effort reconnect at loop index `i` (consulted only when the entry is
present and disconnected; its error is swallowed). -/
def callToolWithRetryGo (rc : RetryConfig) (serverName toolName : String)
    (callOutcomes : Nat → Except String Nat) (reconnectHS : Nat → Except String Unit)
    (now : Nat) : Registry → Nat → Nat → Option String → Nat → CallRetryTrace
  | reg, _, _, lastError, 0 =>
    { result := { success := false, error := some ("Failed after "
        ++ toString (rc.maxRetries + 1) ++ " attempts: " ++ lastError.getD "undefined") },
      reg := reg, attempts := 0, sleeps := [] }
  | reg, attempt, delay, _, fuel + 1 =>
    let o := callTool reg serverName toolName (callOutcomes attempt) now
    if o.result.success then
      { result := o.result, reg := o.reg, attempts := 1, sleeps := [] }
    else if isRetryableError o.result.error = false then
      { result := o.result, reg := o.reg, attempts := 1, sleeps := [] }
    else
      let reg' := reconnectIfDropped o.reg serverName (reconnectHS attempt) now
      if attempt < rc.maxRetries then
        let t := callToolWithRetryGo rc serverName toolName callOutcomes reconnectHS now reg'
          (attempt + 1) (min (delay * rc.backoffMultiplier) rc.maxDelayMs) o.result.error fuel
        { result := t.result, reg := t.reg, attempts := t.attempts + 1, sleeps := delay :: t.sleeps }
      else
        { result := { success := false, error := some ("Failed after "
            ++ toString (rc.maxRetries + 1) ++ " attempts: "
            ++ (o.result.error).getD "undefined") },
          reg := reg', attempts := 1, sleeps := [] }

/-- Method `callToolWithRetry` from the source: up to `maxRetries + 1` attempts of
`callTool`, returning immediately on success or a non-retryable failure,
best-effort reconnecting when the entry is disconnected, sleeping between
attempts, and aggregating the last error on exhaustion. -/
def callToolWithRetry (rc : RetryConfig) (serverName toolName : String)
    (callOutcomes : Nat → Except String Nat) (reconnectHS : Nat → Except String Unit)
    (now : Nat) (reg : Registry) : CallRetryTrace :=
  callToolWithRetryGo rc serverName toolName callOutcomes reconnectHS now reg 0
    rc.initialDelayMs none (rc.maxRetries + 1)

/-! ## Listing, health bookkeeping, teardown -/

/-- Method `listTools` from the source: absent or disconnected entries yield `[]`
with no registry change; otherwise `lastActivity` is updated (before the
query) and a query error also yields `[]`. -/
def listTools (reg : Registry) (serverName : String)
    (outcome : Except String (List MCPToolDefinition)) (now : Nat) :
    List MCPToolDefinition × Registry :=
  match lookupReg reg serverName with
  | none => ([], reg)
  | some conn =>
    if conn.connected = false then ([], reg)
    else
      let reg' := setEntry reg serverName { conn with lastActivity := now }
      match outcome with
      | .ok tools => (tools, reg')
      | .error _ => ([], reg')

/-- Method `listAllTools` from the source: `listTools` for every registered name,
aggregated in registry order. -/
def listAllTools (reg : Registry) (outcomes : String → Except String (List MCPToolDefinition))
    (now : Nat) : List (String × List MCPToolDefinition) × Registry :=
  (reg.map (fun p => p.1)).foldl
    (fun acc name =>
      let r := listTools acc.2 name (outcomes name) now
      (acc.1 ++ [(name, r.1)], r.2))
    ([], reg)

/-- Method `disconnectAll` from the source: disconnect every currently-registered
name (the per-name disconnects touch disjoint entries; sequential folding is
an equivalent serialisation). -/
def disconnectAll (reg : Registry) : Registry :=
  (reg.map (fun p => p.1)).foldl disconnect reg

/-- Method `isConnected` from the source: `connection?.connected ?? false`. -/
def isConnected (reg : Registry) (serverName : String) : Bool :=
  (lookupReg reg serverName).elim false (fun c => c.connected)

/-- Method `getConnectedServers` from the source: names of entries with
`connected == true`, in registry order. -/
def getConnectedServers (reg : Registry) : List String :=
  (reg.filter (fun p => p.2.connected)).map (fun p => p.1)

/-! ## Backoff delay sequence -/

/-- The delays slept by an exhausted retry loop, starting from current delay
`d`: `n` sleeps with `delay = min(delay * multiplier, maxDelayMs)` applied
after each. -/
def delaysFrom (rc : RetryConfig) : Nat → Nat → List Nat
  | _, 0 => []
  | d, n + 1 => d :: delaysFrom rc (min (d * rc.backoffMultiplier) rc.maxDelayMs) n

/-- The full backoff sequence of a policy: `maxRetries` sleeps starting at
`initialDelayMs`. -/
def delaysList (rc : RetryConfig) : List Nat :=
  delaysFrom rc rc.initialDelayMs rc.maxRetries

/-! ## Config loader (`loadMCPConfig`, `resolveEnvVariables`) -/

/-- One value of the `mcpServers` mapping in the config file. -/
structure MCPServerEntry where
  command : String
  args : List String
  env : Option (List (String × String)) := none
  disabled : Option Bool := none
  description : Option String := none
  deriving DecidableEq, Repr

/-- Structure `MCPConfigFile` from the source: the parsed structured document. -/
structure MCPConfigFile where
  mcpServers : List (String × MCPServerEntry)
  deriving DecidableEq, Repr

/-- Semantics of `process.env[varName] || ''`: the environment value, or the empty string
when the variable is unset (or set to the empty string — `||` conflates the
two, with the same result). -/
def envLookup (procEnv : String → Option String) (varName : String) : List Char :=
  ((procEnv varName).getD "").toList

/-- Left-to-right scan implementing the global regex replace
`value.replace(/\$\x7b([^\x7d]+)\x7d/g, (_, varName) => process.env[varName] || '')`.
The first argument is `none` outside a candidate placeholder and
`some acc` after having read `$\x7b` followed by the reversed capture
characters `acc` (the capture `[^\x7d]+` extends to the first closing
brace).  An empty capture or a missing closing brace means the regex does
not match there, and — since no later match can begin inside the scanned
characters — they are emitted literally. -/
def resolveGo (procEnv : String → Option String) :
    Option (List Char) → List Char → List Char
  | none, [] => []
  | none, '$' :: '\x7b' :: rest => resolveGo procEnv (some []) rest
  | none, c :: rest => c :: resolveGo procEnv none rest
  | some acc, [] => '$' :: '\x7b' :: acc.reverse
  | some acc, '\x7d' :: rest =>
    if acc.isEmpty then '$' :: '\x7b' :: '\x7d' :: resolveGo procEnv none rest
    else envLookup procEnv (String.mk acc.reverse) ++ resolveGo procEnv none rest
  | some acc, c :: rest => resolveGo procEnv (some (c :: acc)) rest

/-- Resolve all `${NAME}` placeholders in one `env` value. -/
def resolveValue (procEnv : String → Option String) (value : List Char) : List Char :=
  resolveGo procEnv none value

/-- Function `resolveEnvVariables` from the source: resolve every value of the `env`
mapping; an absent mapping stays absent. -/
def resolveEnvVariables (procEnv : String → Option String)
    (env : Option (List (String × String))) : Option (List (String × String)) :=
  match env with
  | none => none
  | some kvs =>
    some (kvs.map (fun kv => (kv.1, String.mk (resolveValue procEnv kv.2.toList))))

/-- Function `loadMCPConfig` from the source, after the file read and JSON parse
(I/O and parse failures are outside this model): drop `disabled` entries
and resolve each survivor's `env`. -/
def loadMCPConfig (cfg : MCPConfigFile) (procEnv : String → Option String) :
    List MCPServerConfig :=
  (cfg.mcpServers.filter (fun p => !(p.2.disabled.getD false))).map
    (fun p => { name := p.1, command := p.2.command, args := p.2.args,
                env := resolveEnvVariables procEnv p.2.env })

/-! ## Spec-side definitions (for refinement comparison) -/

/-- The retryable set as the specification words it: a message is retryable
iff it matches, case-insensitively, one of: timeout; connection refused
(the word `connection` followed on the same line by `refused`); the
reset-by-peer code `ECONNRESET`; the connection-refused code `ECONNREFUSED`;
the timed-out code `ETIMEDOUT`; a `network` mention; or `unavailable`.
Written from the claim's wording, to be compared with `isRetryableError`. -/
def specRetryableSet (msg : String) : Bool :=
  containsSub ("timeout".toList) (lowerChars msg)
    || connRefusedMatch (lowerChars msg)
    || containsSub ("econnreset".toList) (lowerChars msg)
    || containsSub ("econnrefused".toList) (lowerChars msg)
    || containsSub ("etimedout".toList) (lowerChars msg)
    || containsSub ("network".toList) (lowerChars msg)
    || containsSub ("unavailable".toList) (lowerChars msg)

/-! ## Concrete fixtures used by witnesses and counterexamples -/

/-- A benign server descriptor. -/
def wCfgGithub : MCPServerConfig :=
  { name := "github", command := "npx", args := ["-y", "server-github"], env := none }

/-- A connected registry entry for `github` with a nonzero `retryCount`. -/
def wConnGithub : ConnectionState :=
  { config := wCfgGithub, connected := true, lastActivity := 0, retryCount := 5 }

/-- A registry holding only the connected `github` entry. -/
def wReg : Registry := [("github", wConnGithub)]

/-- A `github` entry with `connected == false` (a state the adapter's own
operations never produce; used to exercise unreachable branches). -/
def wConnDisc : ConnectionState :=
  { config := wCfgGithub, connected := false, lastActivity := 0, retryCount := 5 }

/-- A registry holding only the disconnected `github` entry. -/
def wRegDisc : Registry := [("github", wConnDisc)]

/-- Retry policy with `maxRetries = 2`. -/
def wRC2 : RetryConfig :=
  { maxRetries := 2, initialDelayMs := 1000, maxDelayMs := 30000, backoffMultiplier := 2 }

/-- Retry policy with `maxRetries = 1` and small delays. -/
def wRC1 : RetryConfig :=
  { maxRetries := 1, initialDelayMs := 10, maxDelayMs := 100, backoffMultiplier := 2 }

/-- Policy whose initial delay exceeds its delay cap. -/
def wRCbig : RetryConfig :=
  { maxRetries := 1, initialDelayMs := 50000, maxDelayMs := 30000, backoffMultiplier := 2 }

/-- The spec's backoff example policy. -/
def wRCex : RetryConfig :=
  { maxRetries := 5, initialDelayMs := 1000, maxDelayMs := 30000, backoffMultiplier := 2 }

/-- Transport call outcome: every attempt fails with a non-retryable message. -/
def wCallInvalid : Nat → Except String Nat := fun _ => Except.error "Invalid argument"

/-- Transport call outcome: every attempt fails with a retryable message. -/
def wCallTimeout : Nat → Except String Nat := fun _ => Except.error "ETIMEDOUT"

/-- Transport call outcome: every attempt succeeds. -/
def wCallOk : Nat → Except String Nat := fun _ => Except.ok 42

/-- Handshake outcome: every attempt fails. -/
def wHSFail : Nat → Except String Unit := fun _ => Except.error "ECONNREFUSED"

/-- Handshake outcome: every attempt succeeds. -/
def wHSOk : Nat → Except String Unit := fun _ => Except.ok ()

/-- A successful tool-listing outcome. -/
def wToolsOutcome : Except String (List MCPToolDefinition) :=
  Except.ok [{ name := "test_tool", description := some "A test tool" }]

/-- Tool-listing outcomes per server name. -/
def wToolsOracle : String → Except String (List MCPToolDefinition) :=
  fun _ => wToolsOutcome

/-- An enabled config-file entry whose `env` holds a placeholder. -/
def wServerEnabled : MCPServerEntry :=
  { command := "npx", args := ["-y", "server-github"],
    env := some [("GITHUB_TOKEN", "${API_KEY}")] }

/-- A disabled config-file entry. -/
def wServerDisabled : MCPServerEntry :=
  { command := "npx", args := [], disabled := some true, description := some "off" }

/-- A config file with one enabled and one disabled server. -/
def wCfgFile : MCPConfigFile :=
  { mcpServers := [("github", wServerEnabled), ("slack", wServerDisabled)] }

/-- A process environment defining only `API_KEY`. -/
def wEnv : String → Option String :=
  fun n => if n = "API_KEY" then some "tok-abc" else none

/-! ## Registry lemmas -/

theorem lookupReg_setEntry_self (reg : Registry) (k : String) (v : ConnectionState) :
    lookupReg (setEntry reg k v) k = some v := by
  induction reg with
  | nil => simp [setEntry, lookupReg]
  | cons p rest ih =>
    by_cases h : p.1 = k
    · simp [setEntry, lookupReg, h]
    · simp [setEntry, lookupReg, h, ih]

theorem lookupReg_setEntry_other (reg : Registry) (k k' : String) (v : ConnectionState)
    (hne : k' ≠ k) : lookupReg (setEntry reg k v) k' = lookupReg reg k' := by
  have hkk : ¬ k = k' := fun h => hne h.symm
  induction reg with
  | nil => simp [setEntry, lookupReg, hkk]
  | cons p rest ih =>
    by_cases h : p.1 = k
    · subst h
      simp [setEntry, lookupReg, hkk]
    · simp [setEntry, lookupReg, h, ih]

theorem allConnected_lookupReg (reg : Registry) (k : String) (v : ConnectionState)
    (hall : allConnected reg = true) (hl : lookupReg reg k = some v) :
    v.connected = true := by
  induction reg with
  | nil => simp [lookupReg] at hl
  | cons p rest ih =>
    simp only [allConnected, List.all_cons, Bool.and_eq_true] at hall
    by_cases h : p.1 = k
    · simp [lookupReg, h] at hl
      simpa [← hl] using hall.1
    · exact ih hall.2 (by simpa [lookupReg, h] using hl)

theorem allConnected_setEntry (reg : Registry) (k : String) (v : ConnectionState)
    (hall : allConnected reg = true) (hv : v.connected = true) :
    allConnected (setEntry reg k v) = true := by
  induction reg with
  | nil => simp [setEntry, allConnected, hv]
  | cons p rest ih =>
    simp only [allConnected, List.all_cons, Bool.and_eq_true] at hall
    by_cases h : p.1 = k
    · simp [setEntry, allConnected, h, hv, hall.2]
    · simpa [setEntry, allConnected, h, hall.1] using ih hall.2

theorem allConnected_removeEntry (reg : Registry) (k : String)
    (hall : allConnected reg = true) : allConnected (removeEntry reg k) = true := by
  induction reg with
  | nil => simp [removeEntry, allConnected]
  | cons p rest ih =>
    simp only [allConnected, List.all_cons, Bool.and_eq_true] at hall
    by_cases h : p.1 = k
    · simpa [removeEntry, allConnected, h] using hall.2
    · simpa [removeEntry, allConnected, h, hall.1] using ih hall.2

/-! ## Invariant preservation lemmas -/

theorem allConnected_connectFresh (reg : Registry) (cfg : MCPServerConfig)
    (hs : Except String Unit) (now : Nat) (hall : allConnected reg = true) :
    allConnected (connectFresh reg cfg hs now).2 = true := by
  cases hs with
  | error e => simpa [connectFresh] using hall
  | ok u => exact allConnected_setEntry reg cfg.name _ hall rfl

theorem allConnected_connect (reg : Registry) (cfg : MCPServerConfig)
    (hs : Except String Unit) (now : Nat) (hall : allConnected reg = true) :
    allConnected (connect reg cfg hs now).2 = true := by
  unfold connect
  cases h : lookupReg reg cfg.name with
  | none => exact allConnected_connectFresh reg cfg hs now hall
  | some existing =>
    by_cases hc : existing.connected
    · simpa [hc] using hall
    · simp only [hc, if_false]
      exact allConnected_connectFresh _ cfg hs now
        (allConnected_removeEntry reg cfg.name hall)

theorem allConnected_connectWithRetryGo (rc : RetryConfig) (cfg : MCPServerConfig)
    (handshakes : Nat → Except String Unit) (now : Nat) (fuel : Nat) :
    ∀ (reg : Registry) (attempt delay : Nat) (lastError : Option String),
      allConnected reg = true →
      allConnected (connectWithRetryGo rc cfg handshakes now reg attempt delay lastError fuel).reg
        = true := by
  induction fuel with
  | zero => intro reg attempt delay lastError hall; simpa [connectWithRetryGo] using hall
  | succ n ih =>
    intro reg attempt delay lastError hall
    have hc := allConnected_connect reg cfg (handshakes attempt) now hall
    unfold connectWithRetryGo
    cases h : connect reg cfg (handshakes attempt) now with
    | mk err reg' =>
      rw [h] at hc
      cases err with
      | none => simpa using hc
      | some e =>
        by_cases hlt : attempt < rc.maxRetries
        · simpa [hlt] using ih reg' (attempt + 1) _ (some e) hc
        · simpa [hlt] using hc

theorem allConnected_callTool (reg : Registry) (sn tn : String)
    (co : Except String Nat) (now : Nat) (hall : allConnected reg = true) :
    allConnected (callTool reg sn tn co now).reg = true := by
  unfold callTool
  cases h : lookupReg reg sn with
  | none => simpa using hall
  | some conn =>
    have hcon : conn.connected = true := allConnected_lookupReg reg sn conn hall h
    simp only [hcon]
    cases co with
    | ok d => simpa [hcon] using allConnected_setEntry reg sn _ hall (by simpa using hcon)
    | error e => simpa [hcon] using allConnected_setEntry reg sn _ hall (by simpa using hcon)

theorem allConnected_reconnectIfDropped (reg : Registry) (sn : String)
    (hs : Except String Unit) (now : Nat) (hall : allConnected reg = true) :
    allConnected (reconnectIfDropped reg sn hs now) = true := by
  unfold reconnectIfDropped
  cases h : lookupReg reg sn with
  | none => simpa using hall
  | some conn =>
    by_cases hc : conn.connected
    · simpa [hc] using hall
    · simpa [hc] using allConnected_connect reg conn.config hs now hall

theorem allConnected_callToolWithRetryGo (rc : RetryConfig) (sn tn : String)
    (cos : Nat → Except String Nat) (rhs : Nat → Except String Unit) (now : Nat) (fuel : Nat) :
    ∀ (reg : Registry) (attempt delay : Nat) (lastError : Option String),
      allConnected reg = true →
      allConnected (callToolWithRetryGo rc sn tn cos rhs now reg attempt delay lastError fuel).reg
        = true := by
  induction fuel with
  | zero => intro reg attempt delay lastError hall; simpa [callToolWithRetryGo] using hall
  | succ n ih =>
    intro reg attempt delay lastError hall
    have hct := allConnected_callTool reg sn tn (cos attempt) now hall
    unfold callToolWithRetryGo
    set o := callTool reg sn tn (cos attempt) now with ho
    by_cases hs : o.result.success
    · simpa [hs] using hct
    · by_cases hr : isRetryableError o.result.error = false
      · simpa [hs, hr] using hct
      · have hreg' := allConnected_reconnectIfDropped o.reg sn (rhs attempt) now hct
        by_cases hlt : attempt < rc.maxRetries
        · simpa [hs, hr, hlt] using ih _ (attempt + 1) _ o.result.error hreg'
        · simpa [hs, hr, hlt] using hreg'

theorem allConnected_listTools (reg : Registry) (sn : String)
    (outcome : Except String (List MCPToolDefinition)) (now : Nat)
    (hall : allConnected reg = true) :
    allConnected (listTools reg sn outcome now).2 = true := by
  unfold listTools
  cases h : lookupReg reg sn with
  | none => simpa using hall
  | some conn =>
    have hcon : conn.connected = true := allConnected_lookupReg reg sn conn hall h
    have hset := allConnected_setEntry reg sn { conn with lastActivity := now } hall
      (by simpa using hcon)
    cases outcome with
    | ok tools => simpa [hcon] using hset
    | error e => simpa [hcon] using hset

theorem allConnected_listAllTools_fold
    (outcomes : String → Except String (List MCPToolDefinition)) (now : Nat)
    (names : List String) :
    ∀ (acc : List (String × List MCPToolDefinition)) (r : Registry),
      allConnected r = true →
      allConnected
        (names.foldl
          (fun acc name =>
            let t := listTools acc.2 name (outcomes name) now
            (acc.1 ++ [(name, t.1)], t.2))
          (acc, r)).2 = true := by
  induction names with
  | nil => intro acc r hall; simpa using hall
  | cons n rest ih =>
    intro acc r hall
    simpa using ih _ _ (allConnected_listTools r n (outcomes n) now hall)

theorem allConnected_disconnectAll_fold (names : List String) :
    ∀ (r : Registry), allConnected r = true →
      allConnected (names.foldl disconnect r) = true := by
  induction names with
  | nil => intro r hall; simpa using hall
  | cons n rest ih =>
    intro r hall
    exact ih _ (allConnected_removeEntry r n hall)

/-! ## Substring lemmas -/

theorem isPrefixCL_append_self (p r : List Char) : isPrefixCL p (p ++ r) = true := by
  induction p with
  | nil => simp [isPrefixCL]
  | cons c cs ih => simp [isPrefixCL, ih]

theorem containsSub_self_front (p r : List Char) : containsSub p (p ++ r) = true := by
  cases p with
  | nil => cases r <;> simp [containsSub, isPrefixCL]
  | cons a ps => simp [containsSub, isPrefixCL, isPrefixCL_append_self]

theorem containsSub_append_left (p xs ys : List Char) (h : containsSub p ys = true) :
    containsSub p (xs ++ ys) = true := by
  induction xs with
  | nil => simpa using h
  | cons c cs ih => simp [containsSub, ih]

theorem containsSub_self (p : List Char) : containsSub p p = true := by
  simpa using containsSub_self_front p []

theorem containsSub_cons (p : List Char) (c : Char) (l : List Char)
    (h : containsSub p l = true) : containsSub p (c :: l) = true := by
  simp [containsSub, h]

/-! ## Claim theorems -/

/-- C3: `isRetryableError` returns true for a message if and only if it
matches, case-insensitively, one of: timeout, connection refused
(`connection` then `refused`), `ECONNRESET`, `ECONNREFUSED`, `ETIMEDOUT`, a
`network` mention, or `unavailable`; an absent or empty message, and any
other message (e.g. `"Invalid argument"`), is classified non-retryable. -/
theorem c3_isRetryableError_matches_spec_set :
    (∀ msg : String, isRetryableError (some msg) = specRetryableSet msg) ∧
    isRetryableError none = false ∧
    isRetryableError (some "") = false ∧
    isRetryableError (some "Invalid argument") = false := by
  refine ⟨?_, rfl, by decide, by decide⟩
  intro msg
  by_cases h : msg = ""
  · subst h; decide
  · simp [isRetryableError, specRetryableSet, retryablePatterns, h, Bool.or_assoc]

/-- C7: `callTool` on a name absent from the registry returns
`{success: false}` with the error `"Server <name> not connected"` (which
contains `"not connected"`), performs zero transport calls, and leaves the
registry untouched (in particular it attempts no reconnection); on a name
present with `connected == false` it likewise returns the
`"Server <name> is disconnected"` failure with zero transport calls and no
registry change. -/
theorem c7_callTool_absent_and_disconnected (reg : Registry) (sn tn : String)
    (co : Except String Nat) (now : Nat) :
    (lookupReg reg sn = none →
      callTool reg sn tn co now =
        { result := { success := false, error := some ("Server " ++ sn ++ " not connected") },
          reg := reg, transportCalls := 0 } ∧
      containsSub ("not connected".toList)
        (("Server " ++ sn ++ " not connected").toList) = true) ∧
    (∀ conn, lookupReg reg sn = some conn → conn.connected = false →
      callTool reg sn tn co now =
        { result := { success := false, error := some ("Server " ++ sn ++ " is disconnected") },
          reg := reg, transportCalls := 0 } ∧
      containsSub ("is disconnected".toList)
        (("Server " ++ sn ++ " is disconnected").toList) = true) := by
  constructor
  · intro habs
    constructor
    · simp [callTool, habs]
    · have hsplit : ("Server " ++ sn ++ " not connected").toList
          = "Server ".toList ++ (sn.toList ++ " not connected".toList) := by
        simp [String.toList]
      rw [hsplit, show (" not connected" : String).toList
          = ' ' :: "not connected".toList by decide]
      exact containsSub_append_left _ _ _ (containsSub_append_left _ _ _
        (containsSub_cons _ _ _ (containsSub_self _)))
  · intro conn hl hc
    constructor
    · simp [callTool, hl, hc]
    · have hsplit : ("Server " ++ sn ++ " is disconnected").toList
          = "Server ".toList ++ (sn.toList ++ " is disconnected".toList) := by
        simp [String.toList]
      rw [hsplit, show (" is disconnected" : String).toList
          = ' ' :: "is disconnected".toList by decide]
      exact containsSub_append_left _ _ _ (containsSub_append_left _ _ _
        (containsSub_cons _ _ _ (containsSub_self _)))

/-- Witness for C7 at a concrete input: the empty registry for the absent
case and a disconnected `github` entry for the disconnected case. -/
theorem c7_witness :
    (lookupReg ([] : Registry) "github" = none ∧
      callTool [] "github" "create_issue" (Except.error "boom") 0 =
        { result := { success := false, error := some ("Server " ++ "github" ++ " not connected") },
          reg := [], transportCalls := 0 } ∧
      containsSub ("not connected".toList)
        (("Server " ++ "github" ++ " not connected").toList) = true) ∧
    (callTool wRegDisc "github" "create_issue" (Except.error "boom") 0 =
        { result := { success := false, error := some ("Server " ++ "github" ++ " is disconnected") },
          reg := wRegDisc, transportCalls := 0 } ∧
      containsSub ("is disconnected".toList)
        (("Server " ++ "github" ++ " is disconnected").toList) = true) := by
  refine ⟨⟨by decide, ?_⟩, ?_⟩
  · exact (c7_callTool_absent_and_disconnected [] "github" "create_issue"
      (Except.error "boom") 0).1 (by decide)
  · exact (c7_callTool_absent_and_disconnected wRegDisc "github" "create_issue"
      (Except.error "boom") 0).2 wConnDisc (by decide) (by decide)

/-- A `connect` call throws exactly the handshake's error. -/
theorem connect_error_handshake (reg : Registry) (cfg : MCPServerConfig)
    (hs : Except String Unit) (now : Nat) (e : String)
    (h : (connect reg cfg hs now).1 = some e) : hs = Except.error e := by
  unfold connect connectFresh at h
  cases hl : lookupReg reg cfg.name with
  | none =>
    rw [hl] at h
    cases hs with
    | error e' => simpa using h
    | ok u => simp at h
  | some existing =>
    rw [hl] at h
    by_cases hc : existing.connected
    · simp [hc] at h
    · cases hs with
      | error e' => simpa [hc] using h
      | ok u => simp [hc] at h

/-- C6: on every registry reachable through the adapter's own operations
(all entries connected, see C9), a `connect` whose transport handshake
throws re-throws that error and leaves the registry exactly as it was:
no entry is inserted, removed, or modified. -/
theorem c6_connect_failure_leaves_registry (reg : Registry) (cfg : MCPServerConfig)
    (hs : Except String Unit) (now : Nat) (e : String)
    (hall : allConnected reg = true)
    (hfail : (connect reg cfg hs now).1 = some e) :
    hs = Except.error e ∧ (connect reg cfg hs now).2 = reg := by
  refine ⟨connect_error_handshake reg cfg hs now e hfail, ?_⟩
  unfold connect connectFresh at hfail ⊢
  cases hl : lookupReg reg cfg.name with
  | none =>
    rw [hl] at hfail
    cases hs with
    | error e' => simp
    | ok u => simp at hfail
  | some existing =>
    have hc : existing.connected = true := allConnected_lookupReg reg cfg.name existing hall hl
    rw [hl] at hfail
    simp [hc] at hfail

/-- Witness for C6: handshake failure against the all-connected registry
`wReg` (the `slack` descriptor is absent from it). -/
theorem c6_witness :
    allConnected wReg = true ∧
    (connect wReg { name := "slack", command := "npx", args := [], env := none }
        (Except.error "ECONNREFUSED") 7).1 = some "ECONNREFUSED" ∧
    (Except.error "ECONNREFUSED" : Except String Unit) = Except.error "ECONNREFUSED" ∧
    (connect wReg { name := "slack", command := "npx", args := [], env := none }
        (Except.error "ECONNREFUSED") 7).2 = wReg := by
  refine ⟨by decide, by decide, ?_, ?_⟩
  · exact (c6_connect_failure_leaves_registry wReg
      { name := "slack", command := "npx", args := [], env := none }
      (Except.error "ECONNREFUSED") 7 "ECONNREFUSED" (by decide) (by decide)).1
  · exact (c6_connect_failure_leaves_registry wReg
      { name := "slack", command := "npx", args := [], env := none }
      (Except.error "ECONNREFUSED") 7 "ECONNREFUSED" (by decide) (by decide)).2

/-- C5 counterexample: the claim "a failed invoke increments its
`retryCount`" fails on the code.  With a connected `github` entry whose
`retryCount` is 5, a failed `callTool` leaves `retryCount` at 5 — the code
never increments it. -/
theorem c5_counterexample :
    (lookupReg wReg "github").map (fun c => c.retryCount) = some 5 ∧
    (lookupReg (callTool wReg "github" "create_issue" (Except.error "boom") 3).reg
        "github").map (fun c => c.retryCount) = some 5 ∧
    ¬ ((lookupReg (callTool wReg "github" "create_issue" (Except.error "boom") 3).reg
        "github").map (fun c => c.retryCount) = some 6) := by
  decide

/-- C5 (amended): a successful `callTool` on a registered connected entry
resets its `retryCount` to 0; a failed one leaves `retryCount` unchanged
(the code tracks the field but never increments it). -/
theorem c5_retryCount_reset_not_incremented (reg : Registry) (sn tn : String)
    (now : Nat) (conn : ConnectionState)
    (hl : lookupReg reg sn = some conn) (hc : conn.connected = true) :
    (∀ d : Nat,
      (lookupReg (callTool reg sn tn (Except.ok d) now).reg sn).map
        (fun c => c.retryCount) = some 0) ∧
    (∀ e : String,
      (lookupReg (callTool reg sn tn (Except.error e) now).reg sn).map
        (fun c => c.retryCount) = some conn.retryCount) := by
  constructor
  · intro d
    simp [callTool, hl, hc, lookupReg_setEntry_self]
  · intro e
    simp [callTool, hl, hc, lookupReg_setEntry_self]

/-- Witness for C5 at the concrete registry `wReg` (`retryCount = 5`). -/
theorem c5_witness :
    lookupReg wReg "github" = some wConnGithub ∧
    wConnGithub.connected = true ∧
    (lookupReg (callTool wReg "github" "t" (Except.ok 42) 9).reg "github").map
      (fun c => c.retryCount) = some 0 ∧
    (lookupReg (callTool wReg "github" "t" (Except.error "boom") 9).reg "github").map
      (fun c => c.retryCount) = some wConnGithub.retryCount := by
  refine ⟨by decide, by decide, ?_, ?_⟩
  · exact (c5_retryCount_reset_not_incremented wReg "github" "t" 9 wConnGithub
      (by decide) (by decide)).1 42
  · exact (c5_retryCount_reset_not_incremented wReg "github" "t" 9 wConnGithub
      (by decide) (by decide)).2 "boom"

/-- C1: when the first attempt of `callToolWithRetry` fails with a
non-retryable failure message, exactly one underlying `callTool` attempt is
made and that failure is returned immediately (no sleeps), regardless of
`maxRetries`. -/
theorem c1_nonretryable_stops_after_one_attempt (rc : RetryConfig)
    (sn tn : String) (cos : Nat → Except String Nat) (rhs : Nat → Except String Unit)
    (now : Nat) (reg : Registry)
    (hfail : (callTool reg sn tn (cos 0) now).result.success = false)
    (hnr : isRetryableError (callTool reg sn tn (cos 0) now).result.error = false) :
    (callToolWithRetry rc sn tn cos rhs now reg).attempts = 1 ∧
    (callToolWithRetry rc sn tn cos rhs now reg).result
      = (callTool reg sn tn (cos 0) now).result ∧
    (callToolWithRetry rc sn tn cos rhs now reg).sleeps = [] := by
  unfold callToolWithRetry callToolWithRetryGo
  simp [hfail, hnr]

/-- Witness for C1: a connected `github` entry whose transport call fails
with `"Invalid argument"`; even with `maxRetries = 2` only one attempt is
made. -/
theorem c1_witness :
    (callTool wReg "github" "t" (wCallInvalid 0) 0).result.success = false ∧
    isRetryableError (callTool wReg "github" "t" (wCallInvalid 0) 0).result.error = false ∧
    (callToolWithRetry wRC2 "github" "t" wCallInvalid wHSFail 0 wReg).attempts = 1 ∧
    (callToolWithRetry wRC2 "github" "t" wCallInvalid wHSFail 0 wReg).result
      = (callTool wReg "github" "t" (wCallInvalid 0) 0).result ∧
    (callToolWithRetry wRC2 "github" "t" wCallInvalid wHSFail 0 wReg).sleeps = [] := by
  refine ⟨by decide, by decide, ?_⟩
  exact c1_nonretryable_stops_after_one_attempt wRC2 "github" "t" wCallInvalid wHSFail 0 wReg
    (by decide) (by decide)

/-- C10 counterexample: the adapter's "not connected" message is NOT always
non-retryable — the interpolated server name can itself match a retryable
pattern.  For the unregistered name `"network"`, the message
`"Server network not connected"` is classified retryable, so with
`maxRetries = 1` `callToolWithRetry` makes 2 attempts and returns the
aggregated message rather than the verbatim failure. -/
theorem c10_counterexample :
    isRetryableError (some ("Server " ++ "network" ++ " not connected")) = true ∧
    (callToolWithRetry wRC1 "network" "t" wCallInvalid wHSFail 0 []).attempts = 2 ∧
    (callToolWithRetry wRC1 "network" "t" wCallInvalid wHSFail 0 []).result.error
      = some "Failed after 2 attempts: Server network not connected" := by
  decide

/-- C10 (amended): for every unregistered name whose failure message
`"Server <name> not connected"` is classified non-retryable (every name not
itself matching a retryable pattern, e.g. `"github"`), `callToolWithRetry`
makes exactly one attempt, returns that failure verbatim, and leaves the
registry untouched (no reconnection attempt). -/
theorem c10_unregistered_one_attempt (rc : RetryConfig) (sn tn : String)
    (cos : Nat → Except String Nat) (rhs : Nat → Except String Unit)
    (now : Nat) (reg : Registry)
    (habs : lookupReg reg sn = none)
    (hnr : isRetryableError (some ("Server " ++ sn ++ " not connected")) = false) :
    (callToolWithRetry rc sn tn cos rhs now reg).attempts = 1 ∧
    (callToolWithRetry rc sn tn cos rhs now reg).result
      = { success := false, error := some ("Server " ++ sn ++ " not connected") } ∧
    (callToolWithRetry rc sn tn cos rhs now reg).reg = reg := by
  have hct : callTool reg sn tn (cos 0) now =
      { result := { success := false, error := some ("Server " ++ sn ++ " not connected") },
        reg := reg, transportCalls := 0 } := by
    simp [callTool, habs]
  unfold callToolWithRetry callToolWithRetryGo
  rw [hct]
  simp [hnr]

/-- Witness for C10 at the unregistered benign name `"github"`. -/
theorem c10_witness :
    lookupReg ([] : Registry) "github" = none ∧
    isRetryableError (some ("Server " ++ "github" ++ " not connected")) = false ∧
    (callToolWithRetry wRC2 "github" "t" wCallInvalid wHSFail 0 []).attempts = 1 ∧
    (callToolWithRetry wRC2 "github" "t" wCallInvalid wHSFail 0 []).result
      = { success := false, error := some ("Server " ++ "github" ++ " not connected") } ∧
    (callToolWithRetry wRC2 "github" "t" wCallInvalid wHSFail 0 []).reg = [] := by
  refine ⟨by decide, by decide, ?_⟩
  exact c10_unregistered_one_attempt wRC2 "github" "t" wCallInvalid wHSFail 0 []
    (by decide) (by decide)

/-- Loop invariant of `connectWithRetryGo`: with `attempt + fuel =
maxRetries + 1`, at most `fuel` further connect attempts are made, and an
exhaustion error implies all `fuel` were made and the message aggregates
the final handshake failure. -/
theorem connectWithRetryGo_spec (rc : RetryConfig) (cfg : MCPServerConfig)
    (handshakes : Nat → Except String Unit) (now : Nat) (fuel : Nat) :
    ∀ (reg : Registry) (attempt delay : Nat) (lastError : Option String),
      attempt + fuel = rc.maxRetries + 1 →
      attempt ≤ rc.maxRetries →
      (connectWithRetryGo rc cfg handshakes now reg attempt delay lastError fuel).attempts
        ≤ fuel ∧
      (∀ msg,
        (connectWithRetryGo rc cfg handshakes now reg attempt delay lastError fuel).err
          = some msg →
        (connectWithRetryGo rc cfg handshakes now reg attempt delay lastError fuel).attempts
          = fuel ∧
        ∃ e, handshakes rc.maxRetries = Except.error e ∧
          msg = "Failed to connect to " ++ cfg.name ++ " after "
            ++ toString (rc.maxRetries + 1) ++ " attempts: " ++ e) := by
  induction fuel with
  | zero => intro reg attempt delay lastError hinv hle; omega
  | succ n ih =>
    intro reg attempt delay lastError hinv hle
    unfold connectWithRetryGo
    cases hco : connect reg cfg (handshakes attempt) now with
    | mk err reg' =>
      cases err with
      | none =>
        constructor
        · show 1 ≤ n + 1
          omega
        · intro msg hmsg
          exact absurd hmsg (by simp)
      | some e =>
        have hhs : handshakes attempt = Except.error e :=
          connect_error_handshake reg cfg (handshakes attempt) now e (by rw [hco])
        dsimp only
        by_cases hlt : attempt < rc.maxRetries
        · rw [if_pos hlt]
          have hrec := ih reg' (attempt + 1)
            (min (delay * rc.backoffMultiplier) rc.maxDelayMs) (some e)
            (by omega) (by omega)
          constructor
          · show (connectWithRetryGo rc cfg handshakes now reg' (attempt + 1)
              (min (delay * rc.backoffMultiplier) rc.maxDelayMs) (some e) n).attempts + 1
              ≤ n + 1
            omega
          · intro msg hmsg
            obtain ⟨hatt, hex⟩ := hrec.2 msg hmsg
            exact ⟨by simpa using hatt, hex⟩
        · have hatt : attempt = rc.maxRetries := by omega
          have hn : n = 0 := by omega
          subst hn
          rw [if_neg hlt]
          constructor
          · show 1 ≤ 0 + 1
            omega
          · intro msg hmsg
            refine ⟨rfl, e, by rw [← hatt]; exact hhs, ?_⟩
            have : some ("Failed to connect to " ++ cfg.name ++ " after "
                ++ toString (rc.maxRetries + 1) ++ " attempts: " ++ e) = some msg := hmsg
            exact (Option.some.inj this).symm

/-- C2: `connectWithRetry` makes at most `maxRetries + 1` underlying connect
attempts; it fails only after all `maxRetries + 1` attempts fail, and the
exhaustion error message reports the attempt count (`maxRetries + 1`) and
the message of the last underlying cause. -/
theorem c2_connectWithRetry_attempt_bound (rc : RetryConfig) (cfg : MCPServerConfig)
    (handshakes : Nat → Except String Unit) (now : Nat) (reg : Registry) :
    (connectWithRetry rc cfg handshakes now reg).attempts ≤ rc.maxRetries + 1 ∧
    (∀ msg, (connectWithRetry rc cfg handshakes now reg).err = some msg →
      (connectWithRetry rc cfg handshakes now reg).attempts = rc.maxRetries + 1 ∧
      ∃ e, handshakes rc.maxRetries = Except.error e ∧
        msg = "Failed to connect to " ++ cfg.name ++ " after "
          ++ toString (rc.maxRetries + 1) ++ " attempts: " ++ e) := by
  unfold connectWithRetry
  exact connectWithRetryGo_spec rc cfg handshakes now (rc.maxRetries + 1) reg 0
    rc.initialDelayMs none (by omega) (by omega)

/-- Witness for C2: two failing handshakes against the empty registry with
`maxRetries = 1` exhaust both attempts and aggregate the last cause. -/
theorem c2_witness :
    (connectWithRetry wRC1 wCfgGithub wHSFail 0 []).err
      = some "Failed to connect to github after 2 attempts: ECONNREFUSED" ∧
    (connectWithRetry wRC1 wCfgGithub wHSFail 0 []).attempts ≤ wRC1.maxRetries + 1 ∧
    (connectWithRetry wRC1 wCfgGithub wHSFail 0 []).attempts = wRC1.maxRetries + 1 := by
  refine ⟨by decide,
    (c2_connectWithRetry_attempt_bound wRC1 wCfgGithub wHSFail 0 []).1,
    ((c2_connectWithRetry_attempt_bound wRC1 wCfgGithub wHSFail 0 []).2
      "Failed to connect to github after 2 attempts: ECONNREFUSED" (by decide)).1⟩

/-- A fully exhausted `connectWithRetryGo` loop (all `fuel` attempts made)
sleeps exactly the iteratively clamped delays starting from `delay`. -/
theorem connectWithRetryGo_sleeps (rc : RetryConfig) (cfg : MCPServerConfig)
    (handshakes : Nat → Except String Unit) (now : Nat) (fuel : Nat) :
    ∀ (reg : Registry) (attempt delay : Nat) (lastError : Option String),
      attempt + fuel = rc.maxRetries + 1 →
      (connectWithRetryGo rc cfg handshakes now reg attempt delay lastError fuel).attempts = fuel →
      (connectWithRetryGo rc cfg handshakes now reg attempt delay lastError fuel).sleeps
        = delaysFrom rc delay (fuel - 1) := by
  induction fuel with
  | zero => intro reg attempt delay lastError hinv hatt; simp [connectWithRetryGo, delaysFrom]
  | succ n ih =>
    intro reg attempt delay lastError hinv hatt
    unfold connectWithRetryGo at hatt ⊢
    cases hco : connect reg cfg (handshakes attempt) now with
    | mk err reg' =>
      rw [hco] at hatt
      cases err with
      | none =>
        have hn : n = 0 := by simpa using hatt.symm
        subst hn
        simp [delaysFrom]
      | some e =>
        dsimp only at hatt ⊢
        by_cases hlt : attempt < rc.maxRetries
        · rw [if_pos hlt] at hatt ⊢
          have hn1 : 1 ≤ n := by omega
          obtain ⟨m, rfl⟩ : ∃ m, n = m + 1 := ⟨n - 1, by omega⟩
          have hatt' : (connectWithRetryGo rc cfg handshakes now reg' (attempt + 1)
              (min (delay * rc.backoffMultiplier) rc.maxDelayMs) (some e) (m + 1)).attempts
              = m + 1 := by
            have : (connectWithRetryGo rc cfg handshakes now reg' (attempt + 1)
                (min (delay * rc.backoffMultiplier) rc.maxDelayMs) (some e) (m + 1)).attempts + 1
                = m + 1 + 1 := hatt
            omega
          have hrec := ih reg' (attempt + 1)
            (min (delay * rc.backoffMultiplier) rc.maxDelayMs) (some e)
            (by omega) hatt'
          show delay :: (connectWithRetryGo rc cfg handshakes now reg' (attempt + 1)
              (min (delay * rc.backoffMultiplier) rc.maxDelayMs) (some e) (m + 1)).sleeps
            = delaysFrom rc delay (m + 1 + 1 - 1)
          rw [hrec]
          simp [delaysFrom]
        · rw [if_neg hlt] at hatt ⊢
          have hn : n = 0 := by omega
          subst hn
          simp [delaysFrom]

/-- A fully exhausted `callToolWithRetryGo` loop sleeps exactly the
iteratively clamped delays starting from `delay`. -/
theorem callToolWithRetryGo_sleeps (rc : RetryConfig) (sn tn : String)
    (cos : Nat → Except String Nat) (rhs : Nat → Except String Unit) (now : Nat) (fuel : Nat) :
    ∀ (reg : Registry) (attempt delay : Nat) (lastError : Option String),
      attempt + fuel = rc.maxRetries + 1 →
      (callToolWithRetryGo rc sn tn cos rhs now reg attempt delay lastError fuel).attempts = fuel →
      (callToolWithRetryGo rc sn tn cos rhs now reg attempt delay lastError fuel).sleeps
        = delaysFrom rc delay (fuel - 1) := by
  induction fuel with
  | zero => intro reg attempt delay lastError hinv hatt; simp [callToolWithRetryGo, delaysFrom]
  | succ n ih =>
    intro reg attempt delay lastError hinv hatt
    unfold callToolWithRetryGo at hatt ⊢
    by_cases hs : (callTool reg sn tn (cos attempt) now).result.success
    · rw [if_pos hs] at hatt ⊢
      have hn : n = 0 := by simpa using hatt.symm
      subst hn
      simp [delaysFrom]
    · rw [if_neg hs] at hatt ⊢
      by_cases hr : isRetryableError (callTool reg sn tn (cos attempt) now).result.error = false
      · rw [if_pos hr] at hatt ⊢
        have hn : n = 0 := by simpa using hatt.symm
        subst hn
        simp [delaysFrom]
      · rw [if_neg hr] at hatt ⊢
        by_cases hlt : attempt < rc.maxRetries
        · rw [if_pos hlt] at hatt ⊢
          have hn1 : 1 ≤ n := by omega
          obtain ⟨m, rfl⟩ : ∃ m, n = m + 1 := ⟨n - 1, by omega⟩
          dsimp only at hatt ⊢
          have hatt' : (callToolWithRetryGo rc sn tn cos rhs now
              (reconnectIfDropped (callTool reg sn tn (cos attempt) now).reg sn
                (rhs attempt) now)
              (attempt + 1) (min (delay * rc.backoffMultiplier) rc.maxDelayMs)
              (callTool reg sn tn (cos attempt) now).result.error (m + 1)).attempts
              = m + 1 := by omega
          have hrec := ih (reconnectIfDropped (callTool reg sn tn (cos attempt) now).reg sn
              (rhs attempt) now) (attempt + 1)
            (min (delay * rc.backoffMultiplier) rc.maxDelayMs)
            (callTool reg sn tn (cos attempt) now).result.error
            (by omega) hatt'
          rw [hrec]
          simp [delaysFrom]
        · rw [if_neg hlt] at hatt ⊢
          have hn : n = 0 := by omega
          subst hn
          simp [delaysFrom]

theorem delaysFrom_length (rc : RetryConfig) :
    ∀ (n d : Nat), (delaysFrom rc d n).length = n := by
  intro n
  induction n with
  | zero => intro d; simp [delaysFrom]
  | succ m ih => intro d; simp [delaysFrom, ih]

/-- The clamp-step identity: one iterated clamp agrees with the closed-form
`min (d * m ^ (i+1)) M` clamp, provided the compared base is the clamp of
`d * m`. -/
theorem min_clamp_step (d m M i : Nat) :
    min (min (d * m) M * m ^ i) M = min (d * m ^ (i + 1)) M := by
  by_cases h : d * m ≤ M
  · rw [Nat.min_eq_left h]
    congr 1
    ring
  · push_neg at h
    have hm : 0 < m := by
      rcases Nat.eq_zero_or_pos m with hm0 | hm0
      · subst hm0; simp at h
      · exact hm0
    have hp : 1 ≤ m ^ i := Nat.one_le_pow i m hm
    have h1 : min (d * m) M = M := Nat.min_eq_right h.le
    rw [h1]
    have h2 : M ≤ M * m ^ i := by
      calc M = M * 1 := by ring
        _ ≤ M * m ^ i := Nat.mul_le_mul_left M hp
    have h3 : M ≤ d * m ^ (i + 1) := by
      calc M ≤ d * m := h.le
        _ = d * m * 1 := by ring
        _ ≤ d * m * m ^ i := Nat.mul_le_mul_left (d * m) hp
        _ = d * m ^ (i + 1) := by ring
    rw [Nat.min_eq_right h2, Nat.min_eq_right h3]

/-- Closed form of the backoff sequence when the starting delay does not
exceed the cap: element `i` is `min (d * multiplier ^ i) maxDelayMs`. -/
theorem delaysFrom_get (rc : RetryConfig) :
    ∀ (n d : Nat), d ≤ rc.maxDelayMs → ∀ i, i < n →
      (delaysFrom rc d n).get? i
        = some (min (d * rc.backoffMultiplier ^ i) rc.maxDelayMs) := by
  intro n
  induction n with
  | zero => intro d hd i hi; omega
  | succ m ih =>
    intro d hd i hi
    cases i with
    | zero => simp [delaysFrom, Nat.min_eq_left hd]
    | succ i =>
      have hd' : min (d * rc.backoffMultiplier) rc.maxDelayMs ≤ rc.maxDelayMs :=
        min_le_right _ _
      have hrec := ih (min (d * rc.backoffMultiplier) rc.maxDelayMs) hd' i (by omega)
      show (delaysFrom rc (min (d * rc.backoffMultiplier) rc.maxDelayMs) m).get? i
        = some (min (d * rc.backoffMultiplier ^ (i + 1)) rc.maxDelayMs)
      rw [hrec, min_clamp_step]

/-- C4 counterexample: the first backoff delay is the raw `initialDelayMs`,
not clamped to `maxDelayMs`.  For the policy `{maxRetries := 1,
initialDelayMs := 50000, maxDelayMs := 30000, backoffMultiplier := 2}`, an
exhausted `connectWithRetry` sleeps `[50000]`, while the claim's formula
`min(initialDelay * multiplier ^ 0, maxDelay)` demands `[30000]`. -/
theorem c4_counterexample :
    (connectWithRetry wRCbig wCfgGithub wHSFail 0 []).err.isSome = true ∧
    (connectWithRetry wRCbig wCfgGithub wHSFail 0 []).sleeps = [50000] ∧
    min (wRCbig.initialDelayMs * wRCbig.backoffMultiplier ^ 0) wRCbig.maxDelayMs = 30000 ∧
    ¬ ((connectWithRetry wRCbig wCfgGithub wHSFail 0 []).sleeps
        = [min (wRCbig.initialDelayMs * wRCbig.backoffMultiplier ^ 0) wRCbig.maxDelayMs]) := by
  decide

/-- C4 (amended): when all `maxRetries + 1` attempts are made, both
`connectWithRetry` and `callToolWithRetry` sleep exactly the `delaysList`
sequence of length `maxRetries`, whose element 0 is the raw
`initialDelayMs` and whose later elements apply `min(delay * multiplier,
maxDelay)` iteratively; provided `initialDelayMs ≤ maxDelayMs`, element `i`
equals `min(initialDelayMs * multiplier ^ i, maxDelayMs)`, and for the
spec's example policy the sequence is `[1000, 2000, 4000, 8000, 16000]`,
never exceeding `maxDelayMs`. -/
theorem c4_backoff_delay_sequence (rc : RetryConfig) (cfg : MCPServerConfig)
    (hs : Nat → Except String Unit) (now : Nat) (reg : Registry)
    (sn tn : String) (cos : Nat → Except String Nat) (rhs2 : Nat → Except String Unit)
    (now2 : Nat) (reg2 : Registry) :
    ((connectWithRetry rc cfg hs now reg).attempts = rc.maxRetries + 1 →
      (connectWithRetry rc cfg hs now reg).sleeps = delaysList rc) ∧
    ((callToolWithRetry rc sn tn cos rhs2 now2 reg2).attempts = rc.maxRetries + 1 →
      (callToolWithRetry rc sn tn cos rhs2 now2 reg2).sleeps = delaysList rc) ∧
    (delaysList rc).length = rc.maxRetries ∧
    (rc.initialDelayMs ≤ rc.maxDelayMs →
      ∀ i, i < rc.maxRetries →
        (delaysList rc).get? i
          = some (min (rc.initialDelayMs * rc.backoffMultiplier ^ i) rc.maxDelayMs)) ∧
    delaysList wRCex = [1000, 2000, 4000, 8000, 16000] := by
  refine ⟨?_, ?_, ?_, ?_, by decide⟩
  · intro h
    unfold connectWithRetry at h ⊢
    have := connectWithRetryGo_sleeps rc cfg hs now (rc.maxRetries + 1) reg 0
      rc.initialDelayMs none (by omega) h
    simpa [delaysList] using this
  · intro h
    unfold callToolWithRetry at h ⊢
    have := callToolWithRetryGo_sleeps rc sn tn cos rhs2 now2 (rc.maxRetries + 1) reg2 0
      rc.initialDelayMs none (by omega) h
    simpa [delaysList] using this
  · exact delaysFrom_length rc rc.maxRetries rc.initialDelayMs
  · intro hle i hi
    exact delaysFrom_get rc rc.maxRetries rc.initialDelayMs hle i hi

/-- Witness for C4 at the spec's example policy: both loops exhausted with
retryable failures sleep exactly `[1000, 2000, 4000, 8000, 16000]`, and the
closed form holds e.g. at index 3. -/
theorem c4_witness :
    (connectWithRetry wRCex wCfgGithub wHSFail 0 []).attempts = wRCex.maxRetries + 1 ∧
    (connectWithRetry wRCex wCfgGithub wHSFail 0 []).sleeps = delaysList wRCex ∧
    (callToolWithRetry wRCex "github" "t" wCallTimeout wHSFail 0 wReg).attempts
      = wRCex.maxRetries + 1 ∧
    (callToolWithRetry wRCex "github" "t" wCallTimeout wHSFail 0 wReg).sleeps
      = delaysList wRCex ∧
    (delaysList wRCex).length = wRCex.maxRetries ∧
    wRCex.initialDelayMs ≤ wRCex.maxDelayMs ∧
    (delaysList wRCex).get? 3
      = some (min (wRCex.initialDelayMs * wRCex.backoffMultiplier ^ 3) wRCex.maxDelayMs) ∧
    delaysList wRCex = [1000, 2000, 4000, 8000, 16000] := by
  have h := c4_backoff_delay_sequence wRCex wCfgGithub wHSFail 0 []
    "github" "t" wCallTimeout wHSFail 0 wReg
  refine ⟨by decide, h.1 (by decide), by decide, h.2.1 (by decide), h.2.2.1,
    by decide, h.2.2.2.1 (by decide) 3 (by decide), h.2.2.2.2⟩

/-- In a config whose keys are distinct (a JSON object), a key determines
its entry. -/
theorem entry_unique_of_keys_nodup {l : List (String × MCPServerEntry)}
    (h : (l.map Prod.fst).Nodup) {a : String} {b c : MCPServerEntry}
    (h1 : (a, b) ∈ l) (h2 : (a, c) ∈ l) : b = c := by
  induction l with
  | nil => simp at h1
  | cons p rest ih =>
    simp only [List.map_cons, List.nodup_cons] at h
    rcases List.mem_cons.mp h1 with h1' | h1' <;> rcases List.mem_cons.mp h2 with h2' | h2'
    · have := h1'.trans h2'.symm
      simpa using this
    · exfalso
      exact h.1 (by rw [← h1']; exact List.mem_map.mpr ⟨(a, c), h2', rfl⟩)
    · exfalso
      exact h.1 (by rw [← h2']; exact List.mem_map.mpr ⟨(a, b), h1', rfl⟩)
    · exact ih h.2 h1' h2'

/-- Characters scanned without encountering `$` pass through `resolveGo`
unchanged. -/
theorem resolveGo_no_dollar (procEnv : String → Option String) (l : List Char)
    (h : ∀ c ∈ l, c ≠ '$') : resolveGo procEnv none l = l := by
  induction l with
  | nil => rfl
  | cons c rest ih =>
    have hc : c ≠ '$' := h c (by simp)
    simp [resolveGo, hc, ih (fun x hx => h x (by simp [hx]))]

/-- C8: on a well-formed config source (distinct server names),
`loadMCPConfig` excludes every entry marked disabled from its output and
keeps every other entry with its `env` values resolved; resolution maps a
`${API_KEY}` value to the process environment's `API_KEY` (empty when
unset) and leaves values without placeholders unchanged. -/
theorem c8_loadMCPConfig_filters_and_resolves (cfgf : MCPConfigFile)
    (procEnv : String → Option String)
    (hkeys : (cfgf.mcpServers.map Prod.fst).Nodup) :
    (∀ name entry, (name, entry) ∈ cfgf.mcpServers → entry.disabled = some true →
      name ∉ (loadMCPConfig cfgf procEnv).map (fun c => c.name)) ∧
    (∀ name entry, (name, entry) ∈ cfgf.mcpServers → ¬ entry.disabled = some true →
      ({ name := name, command := entry.command, args := entry.args,
         env := resolveEnvVariables procEnv entry.env } : MCPServerConfig)
        ∈ loadMCPConfig cfgf procEnv) ∧
    (∀ value : List Char, (∀ c ∈ value, c ≠ '$') →
      resolveValue procEnv value = value) ∧
    resolveValue procEnv ("${API_KEY}".toList) = envLookup procEnv "API_KEY" := by
  refine ⟨?_, ?_, ?_, ?_⟩
  · intro name entry hmem hdis hout
    obtain ⟨cfg', hcfg', hname⟩ := List.mem_map.mp hout
    obtain ⟨p, hp, hfp⟩ := List.mem_map.mp hcfg'
    have hp1 : p.1 = name := by rw [← hname, ← hfp]
    have hpm : (name, p.2) ∈ cfgf.mcpServers := by rw [← hp1]; exact (List.mem_filter.mp hp).1
    have hent : entry = p.2 := entry_unique_of_keys_nodup hkeys hmem hpm
    have hg := (List.mem_filter.mp hp).2
    rw [← hent, hdis] at hg
    simp at hg
  · intro name entry hmem hnd
    unfold loadMCPConfig
    refine List.mem_map.mpr ⟨(name, entry), List.mem_filter.mpr ⟨hmem, ?_⟩, rfl⟩
    cases hd : entry.disabled with
    | none => simp [hd]
    | some b =>
      cases b with
      | true => exact absurd hd hnd
      | false => simp [hd]
  · exact resolveGo_no_dollar procEnv
  · have h : resolveValue procEnv ("${API_KEY}".toList)
        = envLookup procEnv "API_KEY" ++ [] := rfl
    rw [h, List.append_nil]

/-- Witness for C8 at the concrete two-server config `wCfgFile` and the
environment `wEnv` (`API_KEY = "tok-abc"`): the disabled `slack` entry is
excluded, the enabled `github` entry is kept with its placeholder resolved,
a placeholder-free value passes through, and the loaded list is exactly the
resolved `github` descriptor. -/
theorem c8_witness :
    (wCfgFile.mcpServers.map Prod.fst).Nodup ∧
    "slack" ∉ (loadMCPConfig wCfgFile wEnv).map (fun c => c.name) ∧
    ({ name := "github", command := wServerEnabled.command, args := wServerEnabled.args,
       env := resolveEnvVariables wEnv wServerEnabled.env } : MCPServerConfig)
      ∈ loadMCPConfig wCfgFile wEnv ∧
    resolveValue wEnv ("no-placeholder".toList) = "no-placeholder".toList ∧
    resolveValue wEnv ("${API_KEY}".toList) = envLookup wEnv "API_KEY" ∧
    loadMCPConfig wCfgFile wEnv =
      [{ name := "github", command := "npx", args := ["-y", "server-github"],
         env := some [("GITHUB_TOKEN", "tok-abc")] }] := by
  have h := c8_loadMCPConfig_filters_and_resolves wCfgFile wEnv (by decide)
  refine ⟨by decide,
    h.1 "slack" wServerDisabled (by decide) (by decide),
    h.2.1 "github" wServerEnabled (by decide) (by decide),
    h.2.2.1 ("no-placeholder".toList) (by decide),
    h.2.2.2, by decide⟩

/-- C9: the invariant "every registry entry has `connected == true`" is
preserved by every adapter operation (entries are created only by `connect`
with `connected: true`, removed only by `disconnect`, and nothing sets
`connected` to `false`); consequently `isConnected` holds exactly for
registered names, `getConnectedServers` returns exactly the registered
names, and `callTool`'s "is disconnected" branch condition is unreachable. -/
theorem c9_all_entries_connected (reg : Registry) (rc : RetryConfig)
    (cfg : MCPServerConfig) (hs : Except String Unit) (hss : Nat → Except String Unit)
    (now : Nat) (sn tn : String) (co : Except String Nat) (cos : Nat → Except String Nat)
    (rhs2 : Nat → Except String Unit) (outcome : Except String (List MCPToolDefinition))
    (outcomes : String → Except String (List MCPToolDefinition))
    (hall : allConnected reg = true) :
    allConnected (connect reg cfg hs now).2 = true ∧
    allConnected (connectWithRetry rc cfg hss now reg).reg = true ∧
    allConnected (callTool reg sn tn co now).reg = true ∧
    allConnected (callToolWithRetry rc sn tn cos rhs2 now reg).reg = true ∧
    allConnected (listTools reg sn outcome now).2 = true ∧
    allConnected (listAllTools reg outcomes now).2 = true ∧
    allConnected (disconnect reg sn) = true ∧
    allConnected (disconnectAll reg) = true ∧
    isConnected reg sn = (lookupReg reg sn).isSome ∧
    getConnectedServers reg = reg.map (fun p => p.1) ∧
    (∀ conn, lookupReg reg sn = some conn → conn.connected = true) := by
  refine ⟨allConnected_connect reg cfg hs now hall,
    allConnected_connectWithRetryGo rc cfg hss now (rc.maxRetries + 1) reg 0
      rc.initialDelayMs none hall,
    allConnected_callTool reg sn tn co now hall,
    allConnected_callToolWithRetryGo rc sn tn cos rhs2 now (rc.maxRetries + 1) reg 0
      rc.initialDelayMs none hall,
    allConnected_listTools reg sn outcome now hall,
    ?_, allConnected_removeEntry reg sn hall, ?_,
    ?_, ?_, ?_⟩
  · unfold listAllTools
    exact allConnected_listAllTools_fold outcomes now (reg.map (fun p => p.1)) [] reg hall
  · unfold disconnectAll
    exact allConnected_disconnectAll_fold (reg.map (fun p => p.1)) reg hall
  · cases h : lookupReg reg sn with
    | none => simp [isConnected, h]
    | some conn =>
      simp [isConnected, h, allConnected_lookupReg reg sn conn hall h]
  · unfold getConnectedServers
    rw [List.filter_eq_self.mpr]
    intro p hp
    simp only [allConnected, List.all_eq_true] at hall
    exact hall p hp
  · intro conn hl
    exact allConnected_lookupReg reg sn conn hall hl

/-- Witness for C9 at the concrete connected registry `wReg`. -/
theorem c9_witness :
    allConnected wReg = true ∧
    (allConnected (connect wReg wCfgGithub (Except.ok ()) 4).2 = true ∧
      allConnected (connectWithRetry wRC1 wCfgGithub wHSFail 4 wReg).reg = true ∧
      allConnected (callTool wReg "github" "t" (Except.error "boom") 4).reg = true ∧
      allConnected (callToolWithRetry wRC1 "github" "t" wCallTimeout wHSFail 4 wReg).reg
        = true ∧
      allConnected (listTools wReg "github" wToolsOutcome 4).2 = true ∧
      allConnected (listAllTools wReg wToolsOracle 4).2 = true ∧
      allConnected (disconnect wReg "github") = true ∧
      allConnected (disconnectAll wReg) = true ∧
      isConnected wReg "github" = (lookupReg wReg "github").isSome ∧
      getConnectedServers wReg = wReg.map (fun p => p.1) ∧
      (∀ conn, lookupReg wReg "github" = some conn → conn.connected = true)) :=
  ⟨by decide,
    c9_all_entries_connected wReg wRC1 wCfgGithub (Except.ok ()) wHSFail 4 "github" "t"
      (Except.error "boom") wCallTimeout wHSFail wToolsOutcome wToolsOracle (by decide)⟩

end MCPAdapter
